import Mathlib

/-!
# Verification of the teeproxy Traffic Duplication & Dual-Dispatch Engine

A shallow embedding in Lean 4 of `teeproxy.go` (package `main`): the HTTP
mirroring proxy that forwards every inbound request to one production
backend (whose response is relayed to the client) and mirrors sampled
requests to a list of alternate backends (whose responses are discarded).

Bodies are modelled as byte lists (`List Nat`), Go's `float64` values as
rationals, header maps as association lists.  Fire-and-forget goroutines
are modelled by recording the dispatches they would perform and the log
lines they would emit; the network is an oracle supplying each dispatch's
outcome.  Two request models are used: a value model (fields own their
data) for the dataflow of `ServeHTTP`, and a store/reference model that
makes Go's pointer sharing (the `Header` map, the `URL` pointer, body
buffers) explicit, for the aliasing claims about `DuplicateRequest`.
-/

namespace Teeproxy

/-- Bytes of an HTTP body. -/
abbrev Bytes := List Nat

/-! ## Header maps

Go's `http.Header` is a `map[string][]string` keyed by canonical MIME
header keys; `Header.Get`/`Header.Set` canonicalise their key argument, so
lookups are case-insensitive.  We model canonicalisation by case-folding
the key. -/

/-- Canonical form of a header key (models Go's
`textproto.CanonicalMIMEHeaderKey` up to the equivalence it induces:
two keys collide iff they agree case-insensitively).  Rendered as the
case-folded code-point sequence. -/
def canonKey (s : String) : List Nat :=
  s.toList.map (fun c => if 65 ≤ c.toNat ∧ c.toNat ≤ 90 then c.toNat + 32 else c.toNat)

/-- A header map: an association list of key / value-list pairs. -/
structure Header where
  entries : List (String × List String)
deriving DecidableEq, Repr

/-- Model of `Header.Get`: first value stored under the canonicalised key, or `""`
when the key is absent (Go returns the empty string for a missing key). -/
def Header.get (h : Header) (k : String) : String :=
  match h.entries.find? (fun p => canonKey p.1 = canonKey k) with
  | some (_, v :: _) => v
  | _ => ""

/-- Entry-list update backing `Header.Set`: replace the entry under the
canonicalised key with the single value `v`, appending a fresh entry when
the key is absent. -/
def setEntries : List (String × List String) → String → String →
    List (String × List String)
  | [], k, v => [(k, [v])]
  | p :: rest, k, v =>
    if canonKey p.1 = canonKey k then (p.1, [v]) :: rest else p :: setEntries rest k v

/-- Model of `Header.Set`: store the single value `v` under the canonicalised
key. -/
def Header.set (h : Header) (k v : String) : Header :=
  ⟨setEntries h.entries k v⟩

/-! ## The value model of `http.Request`

`Body` is `Option Bytes`: `none` models a `nil` body, `some bs` a readable
body whose remaining content is `bs`. -/

/-- Value model of the fields of `http.Request` that `teeproxy.go`
reads or writes. -/
structure Request where
  method : String
  url : String
  proto : String
  protoMajor : Nat
  protoMinor : Nat
  header : Header
  body : Option Bytes
  host : String
  contentLength : Int
  close : Bool
  remoteAddr : String
deriving DecidableEq, Repr

/-- The bytes a full read of the request body would yield (`nil` reads as
empty, exactly as `ioutil.ReadAll` on a `nil`-guarded body). -/
def Request.bodyBytes (r : Request) : Bytes := r.body.getD []

/-- Value model of `DuplicateRequest`, from `teeproxy.go`:
reads the whole body (`nil` body yields no bytes), replaces the original's
body by a fresh buffer holding those bytes, and returns a duplicate with
the same fields, a second fresh buffer with the same bytes, and
`Close: true`.  The first component is the mutated original, the second
the duplicate. -/
def DuplicateRequest (request : Request) : Request × Request :=
  let bodyBytes := match request.body with
    | none => ([] : Bytes)
    | some bs => bs
  let request' := { request with body := some bodyBytes }
  let dup : Request :=
    { method := request.method
      url := request.url
      proto := request.proto
      protoMajor := request.protoMajor
      protoMinor := request.protoMinor
      header := request.header
      body := some bodyBytes
      host := request.host
      contentLength := request.contentLength
      close := true
      remoteAddr := "" }
  (request', dup)

/-! ## Sampler (`ServeHTTP` line
`if *percent == 100.0 || h.Randomizer.Float64()*100 < *percent`) -/

/-- The sampling decision.  `percent` is the `-p` flag, `draw` the value
`h.Randomizer.Float64()` would return (uniform in `[0,1)`).  Returns the
decision together with whether the random draw was consumed: Go's `||`
short-circuits, so at `percent == 100.0` no draw happens. -/
def shouldMirror (percent draw : ℚ) : Bool × Bool :=
  if percent = 100 then (true, false)
  else (decide (draw * 100 < percent), true)

/-! ## Method filter (`matchedByHttpMethod`)

`alternateMethodsRegex` is compiled from the `-b.methods` flag and used
via `MatchString`, an *unanchored* match.  We embed the fragment of
regular expressions the flag is documented with (an alternation of
literal branches, e.g. `GET|POST`): such a pattern matches a string iff
some branch occurs in it as a contiguous substring. -/

/-- Whether `pat` occurs in `s` as a contiguous substring (unanchored, as
Go's `regexp.MatchString` treats a literal pattern). -/
def substrIn (pat s : List Char) : Bool :=
  match s with
  | [] => pat.isEmpty
  | _ :: rest => pat.isPrefixOf s || substrIn pat rest

/-- A regular expression that is an alternation of literal branches
(the shape of `-b.methods` patterns such as `GET|POST`). -/
structure AltRegex where
  branches : List String
deriving DecidableEq, Repr

/-- Model of `MatchString` for an alternation-of-literals pattern: some branch
occurs somewhere in `s`. -/
def AltRegex.matchString (r : AltRegex) (s : String) : Bool :=
  r.branches.any (fun b => substrIn b.toList s.toList)

/-- Model of `matchedByHttpMethod`, from `teeproxy.go`: with no compiled regex
(`-b.methods` empty) every method matches; otherwise the regex decides. -/
def matchedByHttpMethod (regex : Option AltRegex) (requestMethod : String) : Bool :=
  match regex with
  | none => true
  | some r => r.matchString requestMethod

/-! ## `getTransport` -/

/-- The fields of the `http.Transport` built by `getTransport` that the
claims mention. -/
structure Transport where
  dialTimeout : Nat
  dialKeepAlive : Nat
  disableKeepAlives : Bool
  tlsHandshakeTimeout : Nat
  responseHeaderTimeout : Nat
  insecureSkipVerify : Bool
deriving DecidableEq, Repr

/-- Model of `getTransport`, from `teeproxy.go`: both branches set
`DisableKeepAlives` from the `-close-connections` flag; the `https`
branch additionally sets `InsecureSkipVerify`. -/
def getTransport (closeConnections : Bool) (scheme : String) (timeout : Nat) : Transport :=
  if scheme = "https" then
    { dialTimeout := timeout
      dialKeepAlive := 10 * timeout
      disableKeepAlives := closeConnections
      tlsHandshakeTimeout := timeout
      responseHeaderTimeout := timeout
      insecureSkipVerify := true }
  else
    { dialTimeout := timeout
      dialKeepAlive := 10 * timeout
      disableKeepAlives := closeConnections
      tlsHandshakeTimeout := timeout
      responseHeaderTimeout := timeout
      insecureSkipVerify := false }

/-! ## Forwarded-identity enrichment (`updateForwardedHeaders`,
`insertOrExtendXFFHeader`, `insertOrExtendForwardedHeader`) -/

/-- Index of the last `':'` in a character list (models
`strings.LastIndex(s, ":")`; `none` models the return value `-1`). -/
def lastColonIdx (cs : List Char) : Option Nat :=
  match cs with
  | [] => none
  | c :: rest =>
    match lastColonIdx rest with
    | some i => some (i + 1)
    | none => if c = ':' then some 0 else none

/-- Log lines the embedded code can emit. -/
inductive LogEvent where
  /-- The line `log.Printf("The default format of request.RemoteAddr ...")`. -/
  | remoteAddrWarning
  /-- The line `log.Println("Request failed:", err)` in `handleRequest`. -/
  | requestFailed (msg : String)
  /-- the `| B |` status line in `handleAlternativeRequest` -/
  | bLine (method : String) (uri : String) (status : Nat)
  /-- the `| A |` status line in `ServeHTTP` -/
  | aLine (method : String) (uri : String) (status : Nat)
  /-- The line `log.Println("Recovered in ServeHTTP(alternate request) from:", r)`. -/
  | recoveredAlternate (msg : String)
  /-- The line `log.Println("Recovered in ServeHTTP(production request) from:", r)`. -/
  | recoveredProduction (msg : String)
deriving DecidableEq, Repr

/-- The client IP extracted from `request.RemoteAddr`: the prefix before
the last colon, or — when no colon is present — the whole address,
together with the warning logged in that fallback. -/
def extractRemoteIP (remoteAddr : String) : String × List LogEvent :=
  match lastColonIdx remoteAddr.toList with
  | some i => (String.mk (remoteAddr.toList.take i), [])
  | none => (remoteAddr, [LogEvent.remoteAddrWarning])

/-- Go constant `XFF_HEADER`. -/
def xffHeaderName : String := "X-Forwarded-For"

/-- Go constant `FORWARDED_HEADER`. -/
def forwardedHeaderName : String := "Forwarded"

/-- Model of `insertOrExtendXFFHeader`, from `teeproxy.go`. -/
def insertOrExtendXFFHeader (request : Request) (remoteIP : String) : Request :=
  let header := request.header.get xffHeaderName
  if header ≠ "" then
    { request with header := request.header.set xffHeaderName (header ++ ", " ++ remoteIP) }
  else
    { request with header := request.header.set xffHeaderName remoteIP }

/-- Model of `insertOrExtendForwardedHeader`, from `teeproxy.go` (RFC 7239). -/
def insertOrExtendForwardedHeader (request : Request) (remoteIP : String) : Request :=
  let extension := "for=" ++ remoteIP
  let header := request.header.get forwardedHeaderName
  if header ≠ "" then
    { request with header := request.header.set forwardedHeaderName (header ++ ", " ++ extension) }
  else
    { request with header := request.header.set forwardedHeaderName extension }

/-- Model of `updateForwardedHeaders`, from `teeproxy.go`: extract the client IP
from `RemoteAddr` (stripping the trailing `:port` at the last colon, with
a logged fallback to the whole address when no colon is present), then
update `Forwarded` and `X-Forwarded-For`, in that order. -/
def updateForwardedHeaders (request : Request) : Request × List LogEvent :=
  let remoteIP := (extractRemoteIP request.remoteAddr).1
  let request' := insertOrExtendForwardedHeader request remoteIP
  let request'' := insertOrExtendXFFHeader request' remoteIP
  (request'', (extractRemoteIP request.remoteAddr).2)

/-! ## Target resolution (`setRequestTarget`, `SchemeAndHost`) -/

/-- Model of `setRequestTarget`, from `teeproxy.go`: rewrites the request URL to
`scheme://target` followed by the original URL (an inbound request's URL
renders as its path and query). -/
def setRequestTarget (request : Request) (target scheme : String) : Request :=
  { request with url := scheme ++ "://" ++ target ++ request.url }

/-- Model of `SchemeAndHost`, from `teeproxy.go`: split an endpoint flag value
into scheme and host. -/
def SchemeAndHost (url : String) : String × String :=
  if "https".toList.isPrefixOf url.toList then
    ("https", String.mk (url.toList.drop "https://".length))
  else
    ("http", String.mk (url.toList.drop "http://".length))

/-! ## Dispatch and the network oracle

A dispatched outbound request is recorded as a `Dispatch`.  What the
network does with it is supplied by an oracle: a response, a transport
error, or a panic inside the round-trip. -/

/-- Value model of the fields of `http.Response` the code reads. -/
structure Response where
  status : Nat
  header : List (String × List String)
  body : Bytes
deriving DecidableEq, Repr

/-- Outcome of one secondary round-trip, supplied by the oracle. -/
inductive SecOutcome where
  | response (resp : Response)
  | roundTripError (msg : String)
  | panicked (msg : String)
deriving DecidableEq, Repr

/-- One outbound dispatch: the request as sent, the backend it goes to,
and the transport configuration used. -/
structure Dispatch where
  req : Request
  target : String
  scheme : String
  timeout : Nat
deriving DecidableEq, Repr

/-- Model of `handleRequest`, from `teeproxy.go`: a round-trip whose error case is
logged *unconditionally* (`log.Println("Request failed:", err)`) and
yields no response.  A panic in the transport escapes this function. -/
def handleRequest (outcome : SecOutcome) : Option Response × List LogEvent :=
  match outcome with
  | SecOutcome.response resp => (some resp, [])
  | SecOutcome.roundTripError msg => (none, [LogEvent.requestFailed msg])
  | SecOutcome.panicked _ => (none, [])

/-- Model of `handleAlternativeRequest`, from `teeproxy.go`: runs `handleRequest`
inside a `recover` barrier.  A panic is logged only under `-debug`; a
non-nil response is logged as a `| B |` line and its body closed; all
outcomes are confined to this lane — nothing is returned. -/
def handleAlternativeRequest (debug : Bool) (request : Request) (outcome : SecOutcome) :
    List LogEvent :=
  match outcome with
  | SecOutcome.panicked msg =>
      if debug then [LogEvent.recoveredAlternate msg] else []
  | SecOutcome.roundTripError msg => [LogEvent.requestFailed msg]
  | SecOutcome.response resp => [LogEvent.bLine request.method request.url resp.status]

/-! ## Response relay (`ServeHTTP` tail)

The client's `http.ResponseWriter`: a header map written by direct map
assignment (`w.Header()[k] = v`), an optional status, and the body bytes
written so far. -/

/-- State of the client's `http.ResponseWriter`. -/
structure ResponseWriter where
  header : List (String × List String)
  status : Option Nat
  body : Bytes
deriving DecidableEq, Repr

/-- Direct map assignment `m[k] = v` on an association-list map: replace
the value under `k` when present, append otherwise (mapping semantics — a
later write for the same key overwrites an earlier one). -/
def mapAssign : List (String × List String) → String → List String →
    List (String × List String)
  | [], k, v => [(k, v)]
  | p :: rest, k, v => if p.1 = k then (k, v) :: rest else p :: mapAssign rest k v

/-- Lookup in an association-list map. -/
def mapFind (m : List (String × List String)) (k : String) : Option (List String) :=
  (m.find? (fun p => p.1 = k)).map Prod.snd

/-- The relay loop `for k, v := range resp.Header { w.Header()[k] = v }`
followed by `w.WriteHeader(resp.StatusCode)` and `io.Copy(w, resp.Body)`. -/
def relayResponse (w : ResponseWriter) (resp : Response) : ResponseWriter :=
  { header := resp.header.foldl (fun acc p => mapAssign acc p.1 p.2) w.header
    status := some resp.status
    body := w.body ++ resp.body }

/-! ## `ServeHTTP` -/

/-- The command-line configuration read by `ServeHTTP` and its callees. -/
structure Config where
  percent : ℚ
  forwardClientIP : Bool
  alternateHostRewrite : Bool
  productionHostRewrite : Bool
  alternateTimeout : Nat
  productionTimeout : Nat
  closeConnections : Bool
  debug : Bool
  methodsRegex : Option AltRegex
deriving DecidableEq, Repr

/-- One alternate backend (`-b` flag occurrence). -/
structure Backend where
  alternative : String
  alternativeScheme : String
deriving DecidableEq, Repr

/-- The `handler` value: production target plus alternates. -/
structure Handler where
  target : String
  targetScheme : String
  alternatives : List Backend
deriving DecidableEq, Repr

/-- The mirroring loop body of `ServeHTTP` for one alternate backend:
`DuplicateRequest`, `setRequestTarget`, optional host rewrite, and the
spawned `handleAlternativeRequest`.  Returns the threaded (mutated)
request, the dispatch, and the goroutine's log lines. -/
def mirrorOne (cfg : Config) (req : Request) (alt : Backend) (outcome : SecOutcome) :
    Request × Dispatch × List LogEvent :=
  let req' := (DuplicateRequest req).1
  let dup := (DuplicateRequest req).2
  let altReq := setRequestTarget dup alt.alternative alt.alternativeScheme
  let altReq' := if cfg.alternateHostRewrite then { altReq with host := alt.alternative } else altReq
  (req', ⟨altReq', alt.alternative, alt.alternativeScheme, cfg.alternateTimeout⟩,
    handleAlternativeRequest cfg.debug altReq' outcome)

/-- The `for _, alt := range h.Alternatives` loop of `ServeHTTP`.  The
oracle `outcomes` supplies each spawned goroutine's round-trip outcome by
position. -/
def mirrorLoop (cfg : Config) (req : Request) (alts : List Backend)
    (outcomes : Nat → SecOutcome) : Request × List Dispatch × List LogEvent :=
  match alts with
  | [] => (req, [], [])
  | alt :: rest =>
    let first := mirrorOne cfg req alt (outcomes 0)
    let tail := mirrorLoop cfg first.1 rest (fun n => outcomes (n + 1))
    (tail.1, first.2.1 :: tail.2.1, first.2.2 ++ tail.2.2)

/-- Everything observable about one `ServeHTTP` call: the spawned
secondary dispatches, the production dispatch, the final state of the
client's response writer, the log lines, and whether the sampler consumed
a random draw. -/
structure ServeResult where
  secondaryDispatches : List Dispatch
  primaryDispatch : Dispatch
  written : ResponseWriter
  logs : List LogEvent
  drawConsumed : Bool
deriving DecidableEq, Repr

/-- The `if *forwardClientIP { updateForwardedHeaders(req) }` prologue of
`ServeHTTP`: the request as seen by all later steps. -/
def enriched (cfg : Config) (req : Request) : Request :=
  if cfg.forwardClientIP then (updateForwardedHeaders req).1 else req

/-- The combined mirroring gate of `ServeHTTP`: the sampling decision
and the method filter. -/
def sampleGate (cfg : Config) (draw : ℚ) (method : String) : Bool :=
  (shouldMirror cfg.percent draw).1 && matchedByHttpMethod cfg.methodsRegex method

/-- Production-side target resolution in `ServeHTTP`: `setRequestTarget`
plus the optional `-a.rewrite` host rewrite. -/
def resolveProduction (cfg : Config) (h : Handler) (r : Request) : Request :=
  let productionRequest := setRequestTarget r h.target h.targetScheme
  if cfg.productionHostRewrite then { productionRequest with host := h.target }
  else productionRequest

/-- Model of `ServeHTTP`, from `teeproxy.go`: optional forwarded-header
enrichment; the sampling gate and method filter guarding the mirroring
loop; then — unconditionally — target resolution, optional host rewrite
and dispatch of the production request, and, when the production
round-trip yields a response, the `| A |` log line and the relay of
status, headers and body to the client.  `draw` is the value
`h.Randomizer.Float64()` would produce; `primaryOutcome` and
`secOutcomes` are the network oracle. -/
def serveHTTP (cfg : Config) (h : Handler) (w : ResponseWriter) (req : Request)
    (draw : ℚ) (primaryOutcome : SecOutcome) (secOutcomes : Nat → SecOutcome) : ServeResult :=
  let req1 := enriched cfg req
  let enrichLogs := if cfg.forwardClientIP then (updateForwardedHeaders req).2 else []
  let mirrorGate := sampleGate cfg draw req1.method
  let req2 := if mirrorGate then (mirrorLoop cfg req1 h.alternatives secOutcomes).1 else req1
  let secDispatches :=
    if mirrorGate then (mirrorLoop cfg req1 h.alternatives secOutcomes).2.1 else []
  let secLogs :=
    if mirrorGate then (mirrorLoop cfg req1 h.alternatives secOutcomes).2.2 else []
  let productionRequest' := resolveProduction cfg h req2
  let resp := (handleRequest primaryOutcome).1
  let primaryLogs := (handleRequest primaryOutcome).2
  let recoverLogs :=
    match primaryOutcome with
    | SecOutcome.panicked msg =>
      if cfg.debug then [LogEvent.recoveredProduction msg] else []
    | _ => []
  let w' :=
    match resp with
    | none => w
    | some r => relayResponse w r
  let relayLogs :=
    match resp with
    | none => ([] : List LogEvent)
    | some r => [LogEvent.aLine productionRequest'.method productionRequest'.url r.status]
  { secondaryDispatches := secDispatches
    primaryDispatch :=
      ⟨productionRequest', h.target, h.targetScheme, cfg.productionTimeout⟩
    written := w'
    logs := enrichLogs ++ secLogs ++ primaryLogs ++ recoverLogs ++ relayLogs
    drawConsumed := (shouldMirror cfg.percent draw).2 }

/-! ## The store model of `http.Request`

Go's `http.Request` holds its `Header` map, its `URL` and its `Body` by
reference.  `DuplicateRequest` copies the *references* `request.URL` and
`request.Header` into the duplicate but allocates fresh body buffers
(`bytes.NewBuffer`).  To reason about this sharing we model the heap as a
store of buffers, header maps and URL values, and a request as a record
of field values and store indices. -/

/-- The heap: body buffers, header maps and URL values, addressed by
index. -/
structure Store where
  bufs : List Bytes
  headers : List Header
  urls : List String
deriving DecidableEq, Repr

/-- Store model of `http.Request`: `urlRef` and `headerRef` are heap
addresses (Go pointer / map sharing); `bodyRef` is `none` for a `nil`
body, `some r` for a body reading from buffer `r`. -/
structure GoRequest where
  method : String
  urlRef : Nat
  proto : String
  protoMajor : Nat
  protoMinor : Nat
  headerRef : Nat
  bodyRef : Option Nat
  host : String
  contentLength : Int
  close : Bool
deriving DecidableEq, Repr

/-- Contents of buffer `r` (a dangling index reads as empty). -/
def bufContents (s : Store) (r : Nat) : Bytes := (s.bufs[r]?).getD []

/-- Allocate a fresh buffer holding `b`; returns the new store and the
fresh index. -/
def allocBuf (s : Store) (b : Bytes) : Store × Nat :=
  ({ s with bufs := s.bufs ++ [b] }, s.bufs.length)

/-- A full, consuming read of buffer `r` (`ioutil.ReadAll`): yields its
contents and leaves the buffer empty. -/
def readAllBuf (s : Store) (r : Nat) : Bytes × Store :=
  (bufContents s r, { s with bufs := s.bufs.set r [] })

/-- In-place `Header.Set` on the header map at address `r`. -/
def headerSetAt (s : Store) (r : Nat) (k v : String) : Store :=
  { s with headers := s.headers.set r ((s.headers.getD r ⟨[]⟩).set k v) }

/-- Read via `Header.Get` on the header map at address `r`. -/
def headerGetAt (s : Store) (r : Nat) (k : String) : String :=
  (s.headers.getD r ⟨[]⟩).get k

/-- The URL value at address `r`. -/
def urlAt (s : Store) (r : Nat) : String := s.urls.getD r ""

/-- Store model of `DuplicateRequest`, from `teeproxy.go`: read the whole
body (consuming the old buffer; a `nil` body reads as empty), repoint the
original at a fresh buffer holding the bytes, and build the duplicate
sharing the *same* `urlRef` and `headerRef` but owning a second fresh
buffer, with `Close: true`.  Returns the final store, the mutated
original, and the duplicate. -/
def DuplicateRequestRef (s : Store) (request : GoRequest) :
    Store × GoRequest × GoRequest :=
  let (bodyBytes, s1) :=
    match request.bodyRef with
    | none => (([] : Bytes), s)
    | some r => readAllBuf s r
  let (s2, r1) := allocBuf s1 bodyBytes
  let request' := { request with bodyRef := some r1 }
  let (s3, r2) := allocBuf s2 bodyBytes
  let dup : GoRequest :=
    { method := request.method
      urlRef := request.urlRef
      proto := request.proto
      protoMajor := request.protoMajor
      protoMinor := request.protoMinor
      headerRef := request.headerRef
      bodyRef := some r2
      host := request.host
      contentLength := request.contentLength
      close := true }
  (s3, request', dup)

/-- The cloning part of the `ServeHTTP` mirroring loop (store model):
one `DuplicateRequest` call per alternate backend, threading the mutated
original through; collects the duplicates in order. -/
def cloneLoopRef (s : Store) (request : GoRequest) : Nat → Store × GoRequest × List GoRequest
  | 0 => (s, request, [])
  | k + 1 =>
    let (s1, request', dup) := DuplicateRequestRef s request
    let (s2, request'', dups) := cloneLoopRef s1 request' k
    (s2, request'', dup :: dups)

/-- Store model of `setRequestTarget`: `url.Parse` builds a *new* URL
value and the assignment `request.URL = URL` repoints the request at it;
the previously shared URL value is not mutated. -/
def setRequestTargetRef (s : Store) (request : GoRequest) (target scheme : String) :
    Store × GoRequest :=
  ({ s with urls := s.urls ++ [scheme ++ "://" ++ target ++ urlAt s request.urlRef] },
   { request with urlRef := s.urls.length })

/-- The body address of a request, defaulting to `0` (only used on
requests whose `bodyRef` is known to be `some`). -/
def bRef (r : GoRequest) : Nat := r.bodyRef.getD 0

/-- The body of `request` is well formed in `s` and reads as `B`:
a `nil` body reads as empty, a buffer body is in bounds with contents
`B`. -/
def GoodBody (s : Store) (request : GoRequest) (B : Bytes) : Prop :=
  match request.bodyRef with
  | none => B = []
  | some r => r < s.bufs.length ∧ bufContents s r = B

/-! ## Store lemmas -/

theorem getq_append_lt {α : Type} (l l' : List α) (i : Nat) (h : i < l.length) :
    (l ++ l')[i]? = l[i]? := by
  simp [List.getElem?_append, h]

theorem getq_append_len {α : Type} (l : List α) (x : α) :
    (l ++ [x])[l.length]? = some x := by
  simp

theorem getq_set_ne {α : Type} (l : List α) (i j : Nat) (v : α) (h : i ≠ j) :
    (l.set i v)[j]? = l[j]? :=
  List.getElem?_set_ne h

/-- Full description of one `DuplicateRequestRef` call on a request whose
body reads as `B`: the store gains exactly the two fresh buffers, both
holding `B`; headers and URLs are untouched; every other pre-existing
buffer is untouched; the original is repointed at the first fresh buffer
and the duplicate — sharing `urlRef` and `headerRef` — at the second,
with `close := true`. -/
theorem DuplicateRequestRef_spec (s : Store) (req : GoRequest) (B : Bytes)
    (hB : GoodBody s req B) :
    (DuplicateRequestRef s req).1.bufs.length = s.bufs.length + 2 ∧
    (DuplicateRequestRef s req).1.headers = s.headers ∧
    (DuplicateRequestRef s req).1.urls = s.urls ∧
    bufContents (DuplicateRequestRef s req).1 s.bufs.length = B ∧
    bufContents (DuplicateRequestRef s req).1 (s.bufs.length + 1) = B ∧
    (∀ idx, idx < s.bufs.length → req.bodyRef ≠ some idx →
      bufContents (DuplicateRequestRef s req).1 idx = bufContents s idx) ∧
    (DuplicateRequestRef s req).2.1 = { req with bodyRef := some s.bufs.length } ∧
    (DuplicateRequestRef s req).2.2 =
      { method := req.method, urlRef := req.urlRef, proto := req.proto,
        protoMajor := req.protoMajor, protoMinor := req.protoMinor,
        headerRef := req.headerRef, bodyRef := some (s.bufs.length + 1),
        host := req.host, contentLength := req.contentLength, close := true } := by
  cases hr : req.bodyRef with
  | none =>
    simp only [GoodBody, hr] at hB
    subst hB
    have ht : (DuplicateRequestRef s req).1 = { s with bufs := s.bufs ++ [[]] ++ [[]] } := by
      simp [DuplicateRequestRef, readAllBuf, allocBuf, hr]
    have hX : (s.bufs ++ [([] : Bytes)]).length = s.bufs.length + 1 := by simp
    refine ⟨by rw [ht]; simp, by rw [ht], by rw [ht], ?_, ?_, ?_, ?_, ?_⟩
    · rw [ht]
      show ((s.bufs ++ [[]] ++ [[]])[s.bufs.length]?).getD [] = []
      rw [getq_append_lt (s.bufs ++ [[]]) [[]] s.bufs.length (by simp),
        show s.bufs.length = s.bufs.length + 0 from rfl]
      simp
    · rw [ht]
      show ((s.bufs ++ [[]] ++ [[]])[s.bufs.length + 1]?).getD [] = []
      rw [← hX, getq_append_len (s.bufs ++ [[]]) ([] : Bytes)]
      rfl
    · intro idx hidx _
      rw [ht]
      show ((s.bufs ++ [[]] ++ [[]])[idx]?).getD [] = (s.bufs[idx]?).getD []
      rw [getq_append_lt (s.bufs ++ [[]]) [[]] idx (by simp; omega),
        getq_append_lt s.bufs [[]] idx hidx]
    · simp [DuplicateRequestRef, readAllBuf, allocBuf, hr]
    · simp [DuplicateRequestRef, readAllBuf, allocBuf, hr]
  | some r =>
    simp only [GoodBody, hr] at hB
    obtain ⟨hrlt, hcont⟩ := hB
    have ht : (DuplicateRequestRef s req).1 =
        { s with bufs := s.bufs.set r [] ++ [B] ++ [B] } := by
      simp only [DuplicateRequestRef, readAllBuf, allocBuf, hr, hcont]
    have hset : (s.bufs.set r []).length = s.bufs.length := by simp
    have hX : (s.bufs.set r [] ++ [B]).length = s.bufs.length + 1 := by simp
    refine ⟨by rw [ht]; simp, by rw [ht], by rw [ht], ?_, ?_, ?_, ?_, ?_⟩
    · rw [ht]
      show ((s.bufs.set r [] ++ [B] ++ [B])[s.bufs.length]?).getD [] = B
      rw [getq_append_lt (s.bufs.set r [] ++ [B]) [B] s.bufs.length (by simp), ← hset,
        getq_append_len (s.bufs.set r []) B]
      rfl
    · rw [ht]
      show ((s.bufs.set r [] ++ [B] ++ [B])[s.bufs.length + 1]?).getD [] = B
      rw [← hX, getq_append_len (s.bufs.set r [] ++ [B]) B]
      rfl
    · intro idx hidx hne
      have hrne : r ≠ idx := fun hcon => hne (by rw [hcon])
      rw [ht]
      show ((s.bufs.set r [] ++ [B] ++ [B])[idx]?).getD [] = (s.bufs[idx]?).getD []
      rw [getq_append_lt (s.bufs.set r [] ++ [B]) [B] idx (by simp; omega),
        getq_append_lt (s.bufs.set r []) [B] idx (by simpa using hidx),
        getq_set_ne s.bufs r idx [] hrne]
    · simp [DuplicateRequestRef, readAllBuf, allocBuf, hr]
    · simp [DuplicateRequestRef, readAllBuf, allocBuf, hr]

/-- Invariant of the cloning loop: after `k` rounds on a request whose
body reads as `B`, the store has gained `2*k` buffers and its headers and
URLs are untouched; the threaded request still reads `B` and keeps its
identity fields; there are `k` duplicates, all sharing the original's
`urlRef`/`headerRef` and carrying `close := true`; their body buffers are
fresh, strictly increasing (hence pairwise distinct) addresses all
holding `B` in the final store; and every pre-existing buffer other than
the request's own body is untouched. -/
theorem cloneLoopRef_spec (k : Nat) : ∀ (s : Store) (req : GoRequest) (B : Bytes),
    GoodBody s req B →
    (cloneLoopRef s req k).1.bufs.length = s.bufs.length + 2 * k ∧
    (cloneLoopRef s req k).1.headers = s.headers ∧
    (cloneLoopRef s req k).1.urls = s.urls ∧
    GoodBody (cloneLoopRef s req k).1 (cloneLoopRef s req k).2.1 B ∧
    ((cloneLoopRef s req k).2.1.method = req.method ∧
      (cloneLoopRef s req k).2.1.urlRef = req.urlRef ∧
      (cloneLoopRef s req k).2.1.headerRef = req.headerRef ∧
      (cloneLoopRef s req k).2.1.host = req.host) ∧
    (cloneLoopRef s req k).2.2.length = k ∧
    (∀ d ∈ (cloneLoopRef s req k).2.2,
      d.method = req.method ∧ d.urlRef = req.urlRef ∧ d.headerRef = req.headerRef ∧
      d.host = req.host ∧ d.contentLength = req.contentLength ∧ d.close = true) ∧
    (∀ d ∈ (cloneLoopRef s req k).2.2,
      d.bodyRef = some (bRef d) ∧ s.bufs.length ≤ bRef d ∧
      bRef d < (cloneLoopRef s req k).1.bufs.length ∧
      bufContents (cloneLoopRef s req k).1 (bRef d) = B) ∧
    ((cloneLoopRef s req k).2.2.map bRef).Pairwise (· < ·) ∧
    (∀ idx, idx < s.bufs.length → req.bodyRef ≠ some idx →
      bufContents (cloneLoopRef s req k).1 idx = bufContents s idx) := by
  induction k with
  | zero =>
    intro s req B hB
    refine ⟨by show s.bufs.length = s.bufs.length + 2 * 0; omega, rfl, rfl, hB,
      ⟨rfl, rfl, rfl, rfl⟩, rfl, ?_, ?_, List.Pairwise.nil, fun idx _ _ => rfl⟩
    · intro d hd
      exact absurd hd (List.not_mem_nil d)
    · intro d hd
      exact absurd hd (List.not_mem_nil d)
  | succ k ih =>
    intro s req B hB
    rcases hDRR : DuplicateRequestRef s req with ⟨t, req1, dup⟩
    rcases hCL : cloneLoopRef t req1 k with ⟨s2, req2, dups⟩
    have hspec := DuplicateRequestRef_spec s req B hB
    simp only [hDRR] at hspec
    obtain ⟨h1, h2, h3, h4, h5, h6, h7, h8⟩ := hspec
    have hGood1 : GoodBody t req1 B := by
      rw [h7]
      simp only [GoodBody]
      exact ⟨by omega, h4⟩
    have hIH := ih t req1 B hGood1
    simp only [hCL] at hIH
    obtain ⟨i1, i2, i3, i4, i5, i6, i7, i8, i9, i10⟩ := hIH
    have hunf : cloneLoopRef s req (k + 1) = (s2, req2, dup :: dups) := by
      simp only [cloneLoopRef, hDRR, hCL]
    simp only [hunf]
    have hreq1body : req1.bodyRef = some s.bufs.length := by rw [h7]
    have hreq1m : req1.method = req.method := by rw [h7]
    have hreq1u : req1.urlRef = req.urlRef := by rw [h7]
    have hreq1h : req1.headerRef = req.headerRef := by rw [h7]
    have hreq1host : req1.host = req.host := by rw [h7]
    have hreq1cl : req1.contentLength = req.contentLength := by rw [h7]
    refine ⟨by omega, by rw [i2, h2], by rw [i3, h3], i4,
      ⟨by rw [i5.1, hreq1m], by rw [i5.2.1, hreq1u], by rw [i5.2.2.1, hreq1h],
        by rw [i5.2.2.2, hreq1host]⟩,
      by simp [i6], ?_, ?_, ?_, ?_⟩
    · intro d hd
      rcases List.mem_cons.mp hd with hdup | hmem
      · simp [hdup, h8]
      · obtain ⟨a, b, c, d', e, f⟩ := i7 d hmem
        exact ⟨by rw [a, hreq1m], by rw [b, hreq1u], by rw [c, hreq1h],
          by rw [d', hreq1host], by rw [e, hreq1cl], f⟩
    · intro d hd
      rcases List.mem_cons.mp hd with hdup | hmem
      · have hbody : d.bodyRef = some (s.bufs.length + 1) := by rw [hdup, h8]
        have hbr : bRef d = s.bufs.length + 1 := by simp [bRef, hbody]
        refine ⟨by rw [hbody, hbr], by rw [hbr]; omega, by rw [hbr]; omega, ?_⟩
        rw [hbr]
        have hfr := i10 (s.bufs.length + 1) (by omega)
          (by rw [hreq1body]; simp)
        rw [hfr, h5]
      · obtain ⟨a, b, c, d'⟩ := i8 d hmem
        exact ⟨a, by omega, by omega, d'⟩
    · refine List.Pairwise.cons ?_ i9
      intro x hx
      obtain ⟨d, hd, hdx⟩ := List.mem_map.mp hx
      obtain ⟨_, hge, _, _⟩ := i8 d hd
      have hbrd : bRef dup = s.bufs.length + 1 := by
        have hbody : dup.bodyRef = some (s.bufs.length + 1) := by rw [h8]
        simp [bRef, hbody]
      rw [hbrd, ← hdx]
      omega
    · intro idx hidx hne
      have step1 : bufContents s2 idx = bufContents t idx := by
        refine i10 idx (by omega) ?_
        rw [hreq1body]
        intro hcon
        simp at hcon
        omega
      rw [step1]
      exact h6 idx hidx hne

/-! ## Value-model lemmas -/

theorem DuplicateRequest_fst (req : Request) :
    (DuplicateRequest req).1 = { req with body := some req.bodyBytes } := by
  cases hb : req.body <;> simp [DuplicateRequest, Request.bodyBytes, hb]

theorem DuplicateRequest_snd (req : Request) :
    (DuplicateRequest req).2 =
      { method := req.method, url := req.url, proto := req.proto,
        protoMajor := req.protoMajor, protoMinor := req.protoMinor,
        header := req.header, body := some req.bodyBytes, host := req.host,
        contentLength := req.contentLength, close := true, remoteAddr := "" } := by
  cases hb : req.body <;> simp [DuplicateRequest, Request.bodyBytes, hb]

/-- Enrichment via `updateForwardedHeaders` only rewrites the header map: every other
field of the request is returned unchanged. -/
theorem updateForwardedHeaders_struct (req : Request) :
    (updateForwardedHeaders req).1 =
      { req with header := (updateForwardedHeaders req).1.header } := by
  simp only [updateForwardedHeaders, insertOrExtendXFFHeader, insertOrExtendForwardedHeader]
  split <;> split <;> rfl

/-- What one pass of the mirroring loop guarantees: the threaded request
keeps its identity fields and its body bytes, there is exactly one
dispatch per alternate backend, and the `i`-th dispatch goes to the
`i`-th backend with the resolved URL, the host-rewrite rule, the
original method, header map and body bytes, and `close := true`. -/
theorem mirrorLoop_spec (cfg : Config) : ∀ (alts : List Backend) (req : Request)
    (outs : Nat → SecOutcome),
    ((mirrorLoop cfg req alts outs).1.method = req.method ∧
      (mirrorLoop cfg req alts outs).1.host = req.host ∧
      (mirrorLoop cfg req alts outs).1.header = req.header ∧
      (mirrorLoop cfg req alts outs).1.url = req.url ∧
      (mirrorLoop cfg req alts outs).1.bodyBytes = req.bodyBytes) ∧
    (mirrorLoop cfg req alts outs).2.1.length = alts.length ∧
    (∀ (i : Nat) (alt : Backend), alts[i]? = some alt →
      ∃ d : Dispatch, (mirrorLoop cfg req alts outs).2.1[i]? = some d ∧
        d.target = alt.alternative ∧
        d.scheme = alt.alternativeScheme ∧
        d.timeout = cfg.alternateTimeout ∧
        d.req.host = (if cfg.alternateHostRewrite then alt.alternative else req.host) ∧
        d.req.url = alt.alternativeScheme ++ "://" ++ alt.alternative ++ req.url ∧
        d.req.method = req.method ∧
        d.req.header = req.header ∧
        d.req.bodyBytes = req.bodyBytes ∧
        d.req.close = true) := by
  intro alts
  induction alts with
  | nil =>
    intro req outs
    refine ⟨⟨rfl, rfl, rfl, rfl, rfl⟩, rfl, ?_⟩
    intro i alt halt
    simp at halt
  | cons alt rest ih =>
    intro req outs
    have hfst : (mirrorOne cfg req alt (outs 0)).1 = { req with body := some req.bodyBytes } := by
      simp only [mirrorOne, DuplicateRequest_fst]
    have hIH := ih (mirrorOne cfg req alt (outs 0)).1 (fun n => outs (n + 1))
    obtain ⟨⟨p1, p2, p3, p4, p5⟩, hlen, hidx⟩ := hIH
    have hbb : ({ req with body := some req.bodyBytes } : Request).bodyBytes = req.bodyBytes := by
      simp [Request.bodyBytes]
    have hunf : mirrorLoop cfg req (alt :: rest) outs =
        ((mirrorLoop cfg (mirrorOne cfg req alt (outs 0)).1 rest (fun n => outs (n + 1))).1,
          (mirrorOne cfg req alt (outs 0)).2.1 ::
            (mirrorLoop cfg (mirrorOne cfg req alt (outs 0)).1 rest (fun n => outs (n + 1))).2.1,
          (mirrorOne cfg req alt (outs 0)).2.2 ++
            (mirrorLoop cfg (mirrorOne cfg req alt (outs 0)).1 rest (fun n => outs (n + 1))).2.2) := by
      simp only [mirrorLoop]
    refine ⟨⟨?_, ?_, ?_, ?_, ?_⟩, ?_, ?_⟩
    · rw [hunf]; show (mirrorLoop cfg _ rest _).1.method = req.method
      rw [p1, hfst]
    · rw [hunf]; show (mirrorLoop cfg _ rest _).1.host = req.host
      rw [p2, hfst]
    · rw [hunf]; show (mirrorLoop cfg _ rest _).1.header = req.header
      rw [p3, hfst]
    · rw [hunf]; show (mirrorLoop cfg _ rest _).1.url = req.url
      rw [p4, hfst]
    · rw [hunf]; show (mirrorLoop cfg _ rest _).1.bodyBytes = req.bodyBytes
      rw [p5, hfst, hbb]
    · rw [hunf]
      simp [hlen]
    · intro i a ha
      rw [hunf]
      cases i with
      | zero =>
        simp only [List.getElem?_cons_zero, Option.some.injEq] at ha
        subst ha
        refine ⟨(mirrorOne cfg req alt (outs 0)).2.1, by simp, ?_, ?_, ?_, ?_, ?_, ?_, ?_, ?_, ?_⟩ <;>
          simp [mirrorOne, setRequestTarget, DuplicateRequest_snd, Request.bodyBytes] <;>
          split <;> simp [Request.bodyBytes]
      | succ n =>
        simp only [List.getElem?_cons_succ] at ha
        obtain ⟨d, hd, ht, hs, hto, hh, hu, hm, hhd, hbd, hc⟩ := hidx n a ha
        refine ⟨d, by simpa using hd, ht, hs, hto, ?_, ?_, ?_, ?_, ?_, hc⟩
        · rw [hh, hfst]
        · rw [hu, hfst]
        · rw [hm, hfst]
        · rw [hhd, hfst]
        · rw [hbd, hfst, hbb]

/-- Enrichment touches only the header map. -/
theorem enriched_fields (cfg : Config) (req : Request) :
    (enriched cfg req).method = req.method ∧
    (enriched cfg req).url = req.url ∧
    (enriched cfg req).host = req.host ∧
    (enriched cfg req).body = req.body ∧
    (enriched cfg req).bodyBytes = req.bodyBytes := by
  have hu := updateForwardedHeaders_struct req
  by_cases hf : cfg.forwardClientIP
  · refine ⟨?_, ?_, ?_, ?_, ?_⟩
    · show (enriched cfg req).method = req.method
      rw [enriched, if_pos hf, hu]
    · show (enriched cfg req).url = req.url
      rw [enriched, if_pos hf, hu]
    · show (enriched cfg req).host = req.host
      rw [enriched, if_pos hf, hu]
    · show (enriched cfg req).body = req.body
      rw [enriched, if_pos hf, hu]
    · show (enriched cfg req).bodyBytes = req.bodyBytes
      rw [Request.bodyBytes, enriched, if_pos hf, hu]
      rfl
  · rw [enriched, if_neg hf]
    exact ⟨rfl, rfl, rfl, rfl, rfl⟩

/-- Production-side resolution rewrites only the URL (always) and the
host (under the `-a.rewrite` flag). -/
theorem resolveProduction_fields (cfg : Config) (h : Handler) (r : Request) :
    (resolveProduction cfg h r).method = r.method ∧
    (resolveProduction cfg h r).url = h.targetScheme ++ "://" ++ h.target ++ r.url ∧
    (resolveProduction cfg h r).host =
      (if cfg.productionHostRewrite then h.target else r.host) ∧
    (resolveProduction cfg h r).header = r.header ∧
    (resolveProduction cfg h r).bodyBytes = r.bodyBytes := by
  by_cases hw : cfg.productionHostRewrite <;>
    simp [resolveProduction, setRequestTarget, Request.bodyBytes, hw]

theorem serveHTTP_primaryDispatch (cfg : Config) (h : Handler) (w : ResponseWriter)
    (req : Request) (draw : ℚ) (po : SecOutcome) (so : Nat → SecOutcome) :
    (serveHTTP cfg h w req draw po so).primaryDispatch =
      ⟨resolveProduction cfg h
        (if sampleGate cfg draw (enriched cfg req).method then
          (mirrorLoop cfg (enriched cfg req) h.alternatives so).1
        else enriched cfg req),
        h.target, h.targetScheme, cfg.productionTimeout⟩ := rfl

theorem serveHTTP_secondaryDispatches (cfg : Config) (h : Handler) (w : ResponseWriter)
    (req : Request) (draw : ℚ) (po : SecOutcome) (so : Nat → SecOutcome) :
    (serveHTTP cfg h w req draw po so).secondaryDispatches =
      (if sampleGate cfg draw (enriched cfg req).method then
        (mirrorLoop cfg (enriched cfg req) h.alternatives so).2.1
      else []) := rfl

theorem serveHTTP_written (cfg : Config) (h : Handler) (w : ResponseWriter)
    (req : Request) (draw : ℚ) (po : SecOutcome) (so : Nat → SecOutcome) :
    (serveHTTP cfg h w req draw po so).written =
      (match (handleRequest po).1 with
        | none => w
        | some r => relayResponse w r) := rfl

theorem serveHTTP_drawConsumed (cfg : Config) (h : Handler) (w : ResponseWriter)
    (req : Request) (draw : ℚ) (po : SecOutcome) (so : Nat → SecOutcome) :
    (serveHTTP cfg h w req draw po so).drawConsumed = (shouldMirror cfg.percent draw).2 := rfl

/-- The production dispatch of every `ServeHTTP` call goes to the
production target with the production timeout, and the dispatched request
keeps the inbound method, resolved URL, host-rewrite rule and body
bytes — whatever the draw, the method filter and the oracles were. -/
theorem serveHTTP_primary_fields (cfg : Config) (h : Handler) (w : ResponseWriter)
    (req : Request) (draw : ℚ) (po : SecOutcome) (so : Nat → SecOutcome) :
    (serveHTTP cfg h w req draw po so).primaryDispatch.target = h.target ∧
    (serveHTTP cfg h w req draw po so).primaryDispatch.scheme = h.targetScheme ∧
    (serveHTTP cfg h w req draw po so).primaryDispatch.timeout = cfg.productionTimeout ∧
    (serveHTTP cfg h w req draw po so).primaryDispatch.req.method = req.method ∧
    (serveHTTP cfg h w req draw po so).primaryDispatch.req.url =
      h.targetScheme ++ "://" ++ h.target ++ req.url ∧
    (serveHTTP cfg h w req draw po so).primaryDispatch.req.host =
      (if cfg.productionHostRewrite then h.target else req.host) ∧
    (serveHTTP cfg h w req draw po so).primaryDispatch.req.bodyBytes = req.bodyBytes := by
  obtain ⟨e1, e2, e3, _, e5⟩ := enriched_fields cfg req
  have hr2 : ((if sampleGate cfg draw (enriched cfg req).method then
        (mirrorLoop cfg (enriched cfg req) h.alternatives so).1
      else enriched cfg req) : Request).method = req.method ∧
      ((if sampleGate cfg draw (enriched cfg req).method then
        (mirrorLoop cfg (enriched cfg req) h.alternatives so).1
      else enriched cfg req) : Request).url = req.url ∧
      ((if sampleGate cfg draw (enriched cfg req).method then
        (mirrorLoop cfg (enriched cfg req) h.alternatives so).1
      else enriched cfg req) : Request).host = req.host ∧
      ((if sampleGate cfg draw (enriched cfg req).method then
        (mirrorLoop cfg (enriched cfg req) h.alternatives so).1
      else enriched cfg req) : Request).bodyBytes = req.bodyBytes := by
    by_cases hg : sampleGate cfg draw (enriched cfg req).method
    · obtain ⟨⟨m1, m2, _, m4, m5⟩, _, _⟩ :=
        mirrorLoop_spec cfg h.alternatives (enriched cfg req) so
      rw [if_pos hg]
      exact ⟨m1.trans e1, m4.trans e2, m2.trans e3, m5.trans e5⟩
    · rw [if_neg hg]
      exact ⟨e1, e2, e3, e5⟩
  obtain ⟨r1, r2, r3, r4⟩ := hr2
  obtain ⟨q1, q2, q3, _, q5⟩ := resolveProduction_fields cfg h
    (if sampleGate cfg draw (enriched cfg req).method then
      (mirrorLoop cfg (enriched cfg req) h.alternatives so).1
    else enriched cfg req)
  rw [serveHTTP_primaryDispatch]
  exact ⟨rfl, rfl, rfl, q1.trans r1, by rw [q2, r2], by rw [q3, r3], q5.trans r4⟩

/-! ## Claims -/

/-- C1: For every inbound request the primary (production) dispatch is
always made: whatever the sampling draw, the configured method pattern
and the network oracles, `ServeHTTP` resolves the request to the
production target (with the production timeout and host-rewrite rule,
preserving method, URL and body bytes) and dispatches it; varying the
draw, the method pattern and the secondary oracle leaves the primary
dispatch's target, scheme, method, URL, host and body bytes unchanged. -/
theorem claim_primary_always_attempted (cfg : Config) (h : Handler) (w w' : ResponseWriter)
    (req : Request) (draw draw' : ℚ) (mr : Option AltRegex) (po : SecOutcome)
    (so so' : Nat → SecOutcome) :
    ((serveHTTP cfg h w req draw po so).primaryDispatch.target = h.target ∧
      (serveHTTP cfg h w req draw po so).primaryDispatch.scheme = h.targetScheme ∧
      (serveHTTP cfg h w req draw po so).primaryDispatch.timeout = cfg.productionTimeout ∧
      (serveHTTP cfg h w req draw po so).primaryDispatch.req.method = req.method ∧
      (serveHTTP cfg h w req draw po so).primaryDispatch.req.url =
        h.targetScheme ++ "://" ++ h.target ++ req.url ∧
      (serveHTTP cfg h w req draw po so).primaryDispatch.req.host =
        (if cfg.productionHostRewrite then h.target else req.host) ∧
      (serveHTTP cfg h w req draw po so).primaryDispatch.req.bodyBytes = req.bodyBytes) ∧
    ((serveHTTP { cfg with methodsRegex := mr } h w' req draw' po so').primaryDispatch.target =
        (serveHTTP cfg h w req draw po so).primaryDispatch.target ∧
      (serveHTTP { cfg with methodsRegex := mr } h w' req draw' po so').primaryDispatch.scheme =
        (serveHTTP cfg h w req draw po so).primaryDispatch.scheme ∧
      (serveHTTP { cfg with methodsRegex := mr } h w' req draw' po so').primaryDispatch.req.method =
        (serveHTTP cfg h w req draw po so).primaryDispatch.req.method ∧
      (serveHTTP { cfg with methodsRegex := mr } h w' req draw' po so').primaryDispatch.req.url =
        (serveHTTP cfg h w req draw po so).primaryDispatch.req.url ∧
      (serveHTTP { cfg with methodsRegex := mr } h w' req draw' po so').primaryDispatch.req.host =
        (serveHTTP cfg h w req draw po so).primaryDispatch.req.host ∧
      (serveHTTP { cfg with methodsRegex := mr } h w' req draw' po so').primaryDispatch.req.bodyBytes =
        (serveHTTP cfg h w req draw po so).primaryDispatch.req.bodyBytes) := by
  obtain ⟨a1, a2, a3, a4, a5, a6, a7⟩ := serveHTTP_primary_fields cfg h w req draw po so
  obtain ⟨b1, b2, b3, b4, b5, b6, b7⟩ :=
    serveHTTP_primary_fields { cfg with methodsRegex := mr } h w' req draw' po so'
  exact ⟨⟨a1, a2, a3, a4, a5, a6, a7⟩,
    b1.trans a1.symm, b2.trans a2.symm, b4.trans a4.symm, b5.trans a5.symm,
    b6.trans a6.symm, b7.trans a7.symm⟩

/-! ## Concrete fixtures (used to instantiate theorems with hypotheses) -/

def sampleRequest : Request :=
  { method := "GET", url := "/x?q=1", proto := "HTTP/1.1", protoMajor := 1, protoMinor := 1,
    header := ⟨[]⟩, body := some [104, 105], host := "example.com", contentLength := 2,
    close := false, remoteAddr := "192.168.0.1:80" }

def sampleConfig : Config :=
  { percent := 100, forwardClientIP := false, alternateHostRewrite := false,
    productionHostRewrite := false, alternateTimeout := 1000, productionTimeout := 2500,
    closeConnections := false, debug := false, methodsRegex := none }

def sampleHandler : Handler :=
  { target := "localhost:8080", targetScheme := "http",
    alternatives := [⟨"localhost:8081", "http"⟩] }

def sampleWriter : ResponseWriter := ⟨[], none, []⟩

def sampleOutcome : SecOutcome := SecOutcome.response ⟨200, [("Content-Type", ["text/plain"])], [111, 107]⟩

def sampleOutcomes : Nat → SecOutcome := fun _ => SecOutcome.response ⟨200, [], []⟩

/-- C5: the sampling decision.  `draw` models `h.Randomizer.Float64()`,
uniform in `[0,1)`, so `draw * 100` is the claim's uniform value in
`[0,100)`.  At `percent = 100` the decision is `true` by exact equality
and no draw is consumed; otherwise exactly one draw is consumed and the
decision holds iff `draw * 100 < percent`; hence at `percent = 0` no
secondary dispatch is ever made, and at `percent = 100` one secondary
dispatch per configured backend is made whenever the method filter
admits the method. -/
theorem claim_sampler (cfg : Config) (h : Handler) (w : ResponseWriter) (req : Request)
    (draw : ℚ) (po : SecOutcome) (so : Nat → SecOutcome) :
    (cfg.percent = 100 → shouldMirror cfg.percent draw = (true, false) ∧
      (serveHTTP cfg h w req draw po so).drawConsumed = false) ∧
    (cfg.percent ≠ 100 → (serveHTTP cfg h w req draw po so).drawConsumed = true ∧
      ((shouldMirror cfg.percent draw).1 = true ↔ draw * 100 < cfg.percent)) ∧
    (cfg.percent = 0 → 0 ≤ draw →
      (serveHTTP cfg h w req draw po so).secondaryDispatches = []) ∧
    (cfg.percent = 100 → matchedByHttpMethod cfg.methodsRegex req.method = true →
      (serveHTTP cfg h w req draw po so).secondaryDispatches.length =
        h.alternatives.length) := by
  refine ⟨?_, ?_, ?_, ?_⟩
  · intro hp
    have hs : shouldMirror cfg.percent draw = (true, false) := by
      simp [shouldMirror, hp]
    exact ⟨hs, by rw [serveHTTP_drawConsumed, hs]⟩
  · intro hp
    have hs : shouldMirror cfg.percent draw = (decide (draw * 100 < cfg.percent), true) := by
      simp [shouldMirror, hp]
    exact ⟨by rw [serveHTTP_drawConsumed, hs], by rw [hs]; exact decide_eq_true_iff⟩
  · intro hp hd
    have hnot : ¬(draw * 100 < cfg.percent) := by
      rw [hp]
      exact not_lt.mpr (mul_nonneg hd (by norm_num))
    have hgate : sampleGate cfg draw (enriched cfg req).method = false := by
      have h100 : cfg.percent ≠ 100 := by rw [hp]; norm_num
      simp [sampleGate, shouldMirror, h100, hnot]
    rw [serveHTTP_secondaryDispatches, hgate]
    simp
  · intro hp hm
    have hmm : matchedByHttpMethod cfg.methodsRegex (enriched cfg req).method = true := by
      rw [(enriched_fields cfg req).1, hm]
    have hgate : sampleGate cfg draw (enriched cfg req).method = true := by
      simp [sampleGate, shouldMirror, hp, hmm]
    rw [serveHTTP_secondaryDispatches, hgate]
    simp
    exact (mirrorLoop_spec cfg h.alternatives (enriched cfg req) so).2.1

/-- Witness for C5 at concrete inputs: percentage 100 decides `true`
without a draw; at percentage 50 the decision matches the strict
comparison; at percentage 0 no secondary dispatch happens; at 100 one
dispatch per backend happens. -/
theorem claim_sampler_witness :
    shouldMirror (100 : ℚ) (1/2) = (true, false) ∧
    ((shouldMirror (50 : ℚ) (1/4)).1 = true ↔ (1/4 : ℚ) * 100 < 50) ∧
    (serveHTTP { sampleConfig with percent := 0 } sampleHandler sampleWriter sampleRequest
      (1/2) sampleOutcome sampleOutcomes).secondaryDispatches = [] ∧
    (serveHTTP sampleConfig sampleHandler sampleWriter sampleRequest (1/2) sampleOutcome
      sampleOutcomes).secondaryDispatches.length = 1 := by
  have hA := claim_sampler sampleConfig sampleHandler sampleWriter sampleRequest (1/2)
    sampleOutcome sampleOutcomes
  have hB := claim_sampler { sampleConfig with percent := 0 } sampleHandler sampleWriter
    sampleRequest (1/2) sampleOutcome sampleOutcomes
  have hC := claim_sampler { sampleConfig with percent := 50 } sampleHandler sampleWriter
    sampleRequest (1/4) sampleOutcome sampleOutcomes
  refine ⟨(hA.1 rfl).1, ?_, hB.2.2.1 rfl (by norm_num), ?_⟩
  · exact (hC.2.1 (by norm_num)).2
  · exact (hA.2.2.2 rfl (by decide)).trans rfl


/-- C9: the method filter.  With no configured pattern every method is
eligible; with a pattern, eligibility is exactly the (unanchored) textual
match of the pattern against the method name; with pattern `GET|POST`,
`GET` and `POST` are mirrored to the secondaries and `DELETE` is not,
as witnessed end-to-end on the dispatch list of `serveHTTP`. -/
theorem claim_method_filter (m : String) (r : AltRegex) :
    matchedByHttpMethod none m = true ∧
    (matchedByHttpMethod (some r) m = true ↔ r.matchString m = true) ∧
    matchedByHttpMethod (some ⟨["GET", "POST"]⟩) "GET" = true ∧
    matchedByHttpMethod (some ⟨["GET", "POST"]⟩) "POST" = true ∧
    matchedByHttpMethod (some ⟨["GET", "POST"]⟩) "DELETE" = false ∧
    (serveHTTP { sampleConfig with methodsRegex := some ⟨["GET", "POST"]⟩ } sampleHandler
      sampleWriter sampleRequest (1/2) sampleOutcome sampleOutcomes).secondaryDispatches.length
      = sampleHandler.alternatives.length ∧
    (serveHTTP { sampleConfig with methodsRegex := some ⟨["GET", "POST"]⟩ } sampleHandler
      sampleWriter { sampleRequest with method := "POST" } (1/2) sampleOutcome
      sampleOutcomes).secondaryDispatches.length = sampleHandler.alternatives.length ∧
    (serveHTTP { sampleConfig with methodsRegex := some ⟨["GET", "POST"]⟩ } sampleHandler
      sampleWriter { sampleRequest with method := "DELETE" } (1/2) sampleOutcome
      sampleOutcomes).secondaryDispatches = [] :=
  ⟨rfl, Iff.rfl, by decide, by decide, by decide, by decide, by decide, by decide⟩

/-- C10: every duplicate built by `DuplicateRequest` carries
`Close: true` (connection-close semantics for the mirrored request,
whatever the `-close-connections` flag), while the threaded original —
which becomes the production request — keeps its inbound `Close` value,
and the transport's keep-alive behaviour is governed by the flag through
`DisableKeepAlives`. -/
theorem claim_clone_close_semantics (req : Request) (cc : Bool) (scheme : String)
    (timeout : Nat) :
    (DuplicateRequest req).2.close = true ∧
    (DuplicateRequest req).1.close = req.close ∧
    (getTransport cc scheme timeout).disableKeepAlives = cc := by
  refine ⟨?_, ?_, ?_⟩
  · rw [DuplicateRequest_snd]
  · rw [DuplicateRequest_fst]
  · by_cases hs : scheme = "https" <;> simp [getTransport, hs]


/-- C8: host rewriting.  The production request's Host is the production
target under `-a.rewrite` and the inbound Host otherwise; each secondary
dispatch's Host is that backend's host:port under `-b.rewrite` and the
inbound Host otherwise (and the dispatch goes to that backend). -/
theorem claim_host_rewrite (cfg : Config) (h : Handler) (w : ResponseWriter) (req : Request)
    (draw : ℚ) (po : SecOutcome) (so : Nat → SecOutcome) :
    (serveHTTP cfg h w req draw po so).primaryDispatch.req.host =
      (if cfg.productionHostRewrite then h.target else req.host) ∧
    (∀ (i : Nat) (alt : Backend) (d : Dispatch), h.alternatives[i]? = some alt →
      (serveHTTP cfg h w req draw po so).secondaryDispatches[i]? = some d →
      d.req.host = (if cfg.alternateHostRewrite then alt.alternative else req.host) ∧
      d.target = alt.alternative) := by
  refine ⟨(serveHTTP_primary_fields cfg h w req draw po so).2.2.2.2.2.1, ?_⟩
  intro i alt d halt hd
  rw [serveHTTP_secondaryDispatches] at hd
  by_cases hg : sampleGate cfg draw (enriched cfg req).method
  · rw [if_pos hg] at hd
    obtain ⟨_, _, hidx⟩ := mirrorLoop_spec cfg h.alternatives (enriched cfg req) so
    obtain ⟨d', hd', ht, _, _, hh, _, _, _, _, _⟩ := hidx i alt halt
    have hdd : d = d' := by
      rw [hd] at hd'
      exact Option.some.inj hd'
    subst hdd
    exact ⟨by rw [hh, (enriched_fields cfg req).2.2.1], ht⟩
  · rw [if_neg hg] at hd
    simp at hd

/-- The secondary dispatch `serveHTTP` produces for `sampleRequest`
against `sampleHandler`'s single alternate backend. -/
def sampleAltDispatch : Dispatch :=
  ⟨{ method := "GET", url := "http://localhost:8081/x?q=1", proto := "HTTP/1.1",
     protoMajor := 1, protoMinor := 1, header := ⟨[]⟩, body := some [104, 105],
     host := "example.com", contentLength := 2, close := true, remoteAddr := "" },
   "localhost:8081", "http", 1000⟩

/-- Witness for C8: with both rewrite flags off the secondary dispatch
keeps the inbound Host; with `-a.rewrite` on, the production request's
Host becomes the production target. -/
theorem claim_host_rewrite_witness :
    (serveHTTP sampleConfig sampleHandler sampleWriter sampleRequest (1/2) sampleOutcome
      sampleOutcomes).secondaryDispatches[0]? = some sampleAltDispatch ∧
    sampleAltDispatch.req.host = sampleRequest.host ∧
    (serveHTTP { sampleConfig with productionHostRewrite := true } sampleHandler sampleWriter
      sampleRequest (1/2) sampleOutcome sampleOutcomes).primaryDispatch.req.host =
      sampleHandler.target := by
  have h1 := claim_host_rewrite sampleConfig sampleHandler sampleWriter sampleRequest (1/2)
    sampleOutcome sampleOutcomes
  have h2 := claim_host_rewrite { sampleConfig with productionHostRewrite := true }
    sampleHandler sampleWriter sampleRequest (1/2) sampleOutcome sampleOutcomes
  refine ⟨by decide, ?_, ?_⟩
  · exact (h1.2 0 ⟨"localhost:8081", "http"⟩ sampleAltDispatch (by decide) (by decide)).1
  · exact h2.1


/-! ## Relay lemmas -/

theorem mapFind_mapAssign_self (k : String) (v : List String) :
    ∀ m, mapFind (mapAssign m k v) k = some v := by
  intro m
  induction m with
  | nil => simp [mapAssign, mapFind]
  | cons p rest ih =>
    by_cases hp : p.1 = k
    · simp [mapAssign, hp, mapFind]
    · simpa [mapAssign, hp, mapFind, List.find?] using ih

theorem mapFind_mapAssign_ne (k k' : String) (v : List String) (hne : k ≠ k') :
    ∀ m, mapFind (mapAssign m k v) k' = mapFind m k' := by
  intro m
  induction m with
  | nil =>
    show mapFind [(k, v)] k' = mapFind [] k'
    simp [mapFind, List.find?, decide_eq_false hne]
  | cons p rest ih =>
    by_cases hp : p.1 = k
    · rw [show mapAssign (p :: rest) k v = (k, v) :: rest from by simp [mapAssign, hp]]
      show mapFind ((k, v) :: rest) k' = mapFind (p :: rest) k'
      simp [mapFind, List.find?, decide_eq_false hne, hp]
    · rw [show mapAssign (p :: rest) k v = p :: mapAssign rest k v from by simp [mapAssign, hp]]
      by_cases hp' : p.1 = k'
      · simp [mapFind, List.find?, hp']
      · simp only [mapFind, List.find?] at ih ⊢
        simp only [hp', decide_eq_true_eq, if_neg]
        simpa [hp'] using ih

theorem mapFind_foldl_of_absent (k : String) :
    ∀ (hs : List (String × List String)) (acc : List (String × List String)),
    (∀ p ∈ hs, p.1 ≠ k) →
    mapFind (hs.foldl (fun acc p => mapAssign acc p.1 p.2) acc) k = mapFind acc k := by
  intro hs
  induction hs with
  | nil => intro acc _; rfl
  | cons p rest ih =>
    intro acc habs
    rw [List.foldl_cons,
      ih (mapAssign acc p.1 p.2) (fun q hq => habs q (List.mem_cons_of_mem p hq))]
    exact mapFind_mapAssign_ne p.1 k p.2 (habs p (List.mem_cons_self p rest)) acc

theorem mapFind_foldl_of_mem (k : String) (v : List String) :
    ∀ (hs : List (String × List String)) (acc : List (String × List String)),
    (hs.map Prod.fst).Nodup → (k, v) ∈ hs →
    mapFind (hs.foldl (fun acc p => mapAssign acc p.1 p.2) acc) k = some v := by
  intro hs
  induction hs with
  | nil =>
    intro acc _ hmem
    exact absurd hmem (List.not_mem_nil (k, v))
  | cons p rest ih =>
    intro acc hnd hmem
    rw [List.map_cons, List.nodup_cons] at hnd
    rw [List.foldl_cons]
    rcases List.mem_cons.mp hmem with hhead | htail
    · have hpk : p.1 = k := by rw [← hhead]
      have habs : ∀ q ∈ rest, q.1 ≠ k := by
        intro q hq hcon
        have hmq : q.1 ∈ List.map Prod.fst rest := List.mem_map_of_mem Prod.fst hq
        rw [hcon, ← hpk] at hmq
        exact hnd.1 hmq
      rw [mapFind_foldl_of_absent k rest (mapAssign acc p.1 p.2) habs, ← hhead]
      exact mapFind_mapAssign_self k v acc
    · exact ih (mapAssign acc p.1 p.2) hnd.2 htail

theorem mapFind_eq_some_mem {m : List (String × List String)} {k : String}
    {v : List String} (h : mapFind m k = some v) : (k, v) ∈ m := by
  rw [mapFind] at h
  cases hf : m.find? (fun p => p.1 = k) with
  | none => rw [hf] at h; simp at h
  | some p =>
    rw [hf] at h
    have hk : p.1 = k := by
      have hsome := List.find?_some hf
      simpa using hsome
    have hp : p ∈ m := List.mem_of_find?_eq_some hf
    have hv : p.2 = v := by simpa using h
    have hkv : (k, v) = p := by
      rcases p with ⟨a, b⟩
      simp only at hk hv
      rw [← hk, ← hv]
    rw [hkv]
    exact hp

theorem mapFind_eq_none_absent {m : List (String × List String)} {k : String}
    (h : mapFind m k = none) : ∀ p ∈ m, p.1 ≠ k := by
  intro p hp hcon
  rw [mapFind] at h
  cases hf : m.find? (fun p => p.1 = k) with
  | none => exact (List.find?_eq_none.mp hf p hp) (decide_eq_true hcon)
  | some q => rw [hf] at h; simp at h


/-- C4: the response relay.  When the production round-trip yields a
response, the client writer receives exactly that status code, the body
bytes appended in full, and every response header key/value pair written
with mapping semantics (keys present upstream read back with the
upstream value, keys absent upstream are untouched, and a later write
for the same key overwrites an earlier one); when the production
round-trip fails (transport error or panic — no response), the writer is
returned untouched: no status, headers or body bytes are written. -/
theorem claim_response_relay (cfg : Config) (h : Handler) (w : ResponseWriter) (req : Request)
    (draw : ℚ) (so : Nat → SecOutcome) :
    (∀ msg, (serveHTTP cfg h w req draw (SecOutcome.roundTripError msg) so).written = w) ∧
    (∀ msg, (serveHTTP cfg h w req draw (SecOutcome.panicked msg) so).written = w) ∧
    (∀ resp : Response,
      (serveHTTP cfg h w req draw (SecOutcome.response resp) so).written.status =
        some resp.status ∧
      (serveHTTP cfg h w req draw (SecOutcome.response resp) so).written.body =
        w.body ++ resp.body ∧
      (∀ (k : String) (v : List String), (resp.header.map Prod.fst).Nodup →
        mapFind resp.header k = some v →
        mapFind (serveHTTP cfg h w req draw (SecOutcome.response resp) so).written.header k =
          some v) ∧
      (∀ k : String, mapFind resp.header k = none →
        mapFind (serveHTTP cfg h w req draw (SecOutcome.response resp) so).written.header k =
          mapFind w.header k)) ∧
    (∀ (m : List (String × List String)) (k : String) (v v' : List String),
      mapFind (mapAssign (mapAssign m k v) k v') k = some v') := by
  refine ⟨fun msg => rfl, fun msg => rfl, ?_, ?_⟩
  · intro resp
    refine ⟨rfl, rfl, ?_, ?_⟩
    · intro k v hnd hfind
      rw [serveHTTP_written]
      show mapFind (relayResponse w resp).header k = some v
      rw [relayResponse]
      exact mapFind_foldl_of_mem k v resp.header w.header hnd (mapFind_eq_some_mem hfind)
    · intro k hnone
      rw [serveHTTP_written]
      show mapFind (relayResponse w resp).header k = mapFind w.header k
      rw [relayResponse]
      exact mapFind_foldl_of_absent k resp.header w.header (mapFind_eq_none_absent hnone)
  · intro m k v v'
    rw [mapFind_mapAssign_self k v' (mapAssign m k v)]

/-- Witness for C4: the sample 200/`ok` response is relayed verbatim
(status, body, `Content-Type` header), and a failing primary leaves the
writer untouched.  -/
theorem claim_response_relay_witness :
    (serveHTTP sampleConfig sampleHandler sampleWriter sampleRequest (1/2)
      (SecOutcome.roundTripError "connect timeout") sampleOutcomes).written = sampleWriter ∧
    (serveHTTP sampleConfig sampleHandler sampleWriter sampleRequest (1/2) sampleOutcome
      sampleOutcomes).written.status = some 200 ∧
    (serveHTTP sampleConfig sampleHandler sampleWriter sampleRequest (1/2) sampleOutcome
      sampleOutcomes).written.body = [111, 107] ∧
    mapFind (serveHTTP sampleConfig sampleHandler sampleWriter sampleRequest (1/2) sampleOutcome
      sampleOutcomes).written.header "Content-Type" = some ["text/plain"] := by
  have hA := claim_response_relay sampleConfig sampleHandler sampleWriter sampleRequest (1/2)
    sampleOutcomes
  refine ⟨hA.1 "connect timeout", ?_, ?_, ?_⟩
  · exact (hA.2.2.1 ⟨200, [("Content-Type", ["text/plain"])], [111, 107]⟩).1
  · exact (hA.2.2.1 ⟨200, [("Content-Type", ["text/plain"])], [111, 107]⟩).2.1
  · exact (hA.2.2.1 ⟨200, [("Content-Type", ["text/plain"])], [111, 107]⟩).2.2.1
      "Content-Type" ["text/plain"] (by decide) (by decide)


/-- Neither the request threaded through the mirroring loop nor the
dispatch list depends on the secondary outcomes — only the log lines
do. -/
theorem mirrorLoop_outs_indep (cfg : Config) : ∀ (alts : List Backend) (req : Request)
    (outs outs' : Nat → SecOutcome),
    (mirrorLoop cfg req alts outs).1 = (mirrorLoop cfg req alts outs').1 ∧
    (mirrorLoop cfg req alts outs).2.1 = (mirrorLoop cfg req alts outs').2.1 := by
  intro alts
  induction alts with
  | nil => intro req outs outs'; exact ⟨rfl, rfl⟩
  | cons alt rest ih =>
    intro req outs outs'
    have h1 : (mirrorOne cfg req alt (outs 0)).1 = (mirrorOne cfg req alt (outs' 0)).1 := rfl
    have h2 : (mirrorOne cfg req alt (outs 0)).2.1 = (mirrorOne cfg req alt (outs' 0)).2.1 := rfl
    obtain ⟨i1, i2⟩ :=
      ih (mirrorOne cfg req alt (outs 0)).1 (fun n => outs (n + 1)) (fun n => outs' (n + 1))
    constructor
    · show (mirrorLoop cfg (mirrorOne cfg req alt (outs 0)).1 rest (fun n => outs (n + 1))).1 =
        (mirrorLoop cfg (mirrorOne cfg req alt (outs' 0)).1 rest (fun n => outs' (n + 1))).1
      rw [← h1]
      exact i1
    · show (mirrorOne cfg req alt (outs 0)).2.1 ::
          (mirrorLoop cfg (mirrorOne cfg req alt (outs 0)).1 rest (fun n => outs (n + 1))).2.1 =
        (mirrorOne cfg req alt (outs' 0)).2.1 ::
          (mirrorLoop cfg (mirrorOne cfg req alt (outs' 0)).1 rest (fun n => outs' (n + 1))).2.1
      rw [← h1, ← h2]
      exact congrArg _ i2

/-- Counterexample for C3: with the debug flag off, a connect/write/read
failure on the secondary lane is still logged — `handleRequest` calls
`log.Println("Request failed:", err)` unconditionally, so the "logged
only when the debug flag is enabled" part of the claim is false. -/
theorem claim_secondary_error_logging_cex :
    ({ sampleConfig with debug := false } : Config).debug = false ∧
    LogEvent.requestFailed "dial timeout" ∈
      (serveHTTP { sampleConfig with debug := false } sampleHandler sampleWriter sampleRequest
        (1/2) sampleOutcome (fun _ => SecOutcome.roundTripError "dial timeout")).logs :=
  ⟨rfl, by decide⟩

/-- C3 (amended): every outcome of a secondary dispatch is confined to
that lane — a panic is caught and logged *only when the debug flag is
enabled*, while a connect/write/read failure is logged *unconditionally*
(not gated by debug), and a response is logged and discarded; in all
cases the lane produces only log lines, and the response the client
receives (status, headers and body of the written response) is the same
whatever outcomes the secondary backends produce, as are the dispatches
themselves. -/
theorem claim_secondary_isolation_amended (cfg : Config) (h : Handler) (w : ResponseWriter)
    (req : Request) (draw : ℚ) (po : SecOutcome) :
    (∀ (req' : Request) (msg : String),
      handleAlternativeRequest cfg.debug req' (SecOutcome.panicked msg) =
        (if cfg.debug then [LogEvent.recoveredAlternate msg] else [])) ∧
    (∀ (req' : Request) (msg : String),
      handleAlternativeRequest cfg.debug req' (SecOutcome.roundTripError msg) =
        [LogEvent.requestFailed msg]) ∧
    (∀ (req' : Request) (resp : Response),
      handleAlternativeRequest cfg.debug req' (SecOutcome.response resp) =
        [LogEvent.bLine req'.method req'.url resp.status]) ∧
    (∀ so so' : Nat → SecOutcome,
      (serveHTTP cfg h w req draw po so).written =
        (serveHTTP cfg h w req draw po so').written ∧
      (serveHTTP cfg h w req draw po so).primaryDispatch =
        (serveHTTP cfg h w req draw po so').primaryDispatch ∧
      (serveHTTP cfg h w req draw po so).secondaryDispatches =
        (serveHTTP cfg h w req draw po so').secondaryDispatches) := by
  refine ⟨fun req' msg => rfl, fun req' msg => rfl, fun req' resp => rfl, ?_⟩
  intro so so'
  obtain ⟨hreq, hdisp⟩ :=
    mirrorLoop_outs_indep cfg h.alternatives (enriched cfg req) so so'
  refine ⟨rfl, ?_, ?_⟩
  · rw [serveHTTP_primaryDispatch, serveHTTP_primaryDispatch]
    by_cases hg : sampleGate cfg draw (enriched cfg req).method
    · rw [if_pos hg, if_pos hg, hreq]
    · rw [if_neg hg, if_neg hg]
  · rw [serveHTTP_secondaryDispatches, serveHTTP_secondaryDispatches]
    by_cases hg : sampleGate cfg draw (enriched cfg req).method
    · rw [if_pos hg, if_pos hg, hdisp]
    · rw [if_neg hg, if_neg hg]


/-! ## Header get/set lemmas -/

theorem Header.get_set_self (k v : String) :
    ∀ h : Header, (h.set k v).get k = v := by
  intro h
  obtain ⟨entries⟩ := h
  induction entries with
  | nil => simp [Header.set, setEntries, Header.get, List.find?]
  | cons p rest ih =>
    by_cases hp : canonKey p.1 = canonKey k
    · simp [Header.set, setEntries, hp, Header.get, List.find?]
    · simp only [Header.set, setEntries, hp, if_false] at ih ⊢
      simpa [Header.get, List.find?, hp] using ih

theorem Header.get_set_other (k v k' : String) (hne : canonKey k' ≠ canonKey k) :
    ∀ h : Header, (h.set k v).get k' = h.get k' := by
  intro h
  obtain ⟨entries⟩ := h
  induction entries with
  | nil => simp [Header.set, setEntries, Header.get, List.find?, Ne.symm hne]
  | cons p rest ih =>
    by_cases hp : canonKey p.1 = canonKey k
    · have hp' : canonKey p.1 ≠ canonKey k' := by rw [hp]; exact Ne.symm hne
      simp [Header.set, setEntries, hp, Header.get, List.find?, hp', Ne.symm hne]
    · by_cases hq : canonKey p.1 = canonKey k'
      · simp [Header.set, setEntries, hp, Header.get, List.find?, hq, hne]
      · simp only [Header.set, setEntries, hp, if_false] at ih ⊢
        simpa [Header.get, List.find?, hq] using ih


/-- C7: forwarded-identity enrichment.  The client IP is the remote
address cut at its last colon (the whole address, with a logged warning,
when no colon is present); `X-Forwarded-For` is set to the IP when
absent and extended with `", <ip>"` when present; `Forwarded` is set to
`for=<ip>` when absent and extended with `", for=<ip>"` when present —
with the claim's concrete instances evaluated. -/
theorem claim_forwarded_identity (req : Request) :
    (∀ i : Nat, lastColonIdx req.remoteAddr.toList = some i →
      (extractRemoteIP req.remoteAddr).1 = String.mk (req.remoteAddr.toList.take i) ∧
      (extractRemoteIP req.remoteAddr).2 = []) ∧
    (lastColonIdx req.remoteAddr.toList = none →
      (extractRemoteIP req.remoteAddr).1 = req.remoteAddr ∧
      (extractRemoteIP req.remoteAddr).2 = [LogEvent.remoteAddrWarning]) ∧
    ((updateForwardedHeaders req).1.header.get xffHeaderName =
      (if req.header.get xffHeaderName = "" then (extractRemoteIP req.remoteAddr).1
        else req.header.get xffHeaderName ++ ", " ++ (extractRemoteIP req.remoteAddr).1)) ∧
    ((updateForwardedHeaders req).1.header.get forwardedHeaderName =
      (if req.header.get forwardedHeaderName = "" then
          "for=" ++ (extractRemoteIP req.remoteAddr).1
        else req.header.get forwardedHeaderName ++ ", " ++
          ("for=" ++ (extractRemoteIP req.remoteAddr).1))) ∧
    (updateForwardedHeaders { sampleRequest with header := ⟨[]⟩ }).1.header.get
      "X-Forwarded-For" = "192.168.0.1" ∧
    (updateForwardedHeaders { sampleRequest with header := ⟨[]⟩ }).1.header.get
      "Forwarded" = "for=192.168.0.1" ∧
    (updateForwardedHeaders { sampleRequest with
        header := ⟨[("X-Forwarded-For", ["172.20.2.5"])]⟩ }).1.header.get "X-Forwarded-For" =
      "172.20.2.5, 192.168.0.1" := by
  have hcx : canonKey xffHeaderName ≠ canonKey forwardedHeaderName := by decide
  have hcf : canonKey forwardedHeaderName ≠ canonKey xffHeaderName := Ne.symm hcx
  have hu1 : (updateForwardedHeaders req).1 =
      insertOrExtendXFFHeader
        (insertOrExtendForwardedHeader req (extractRemoteIP req.remoteAddr).1)
        (extractRemoteIP req.remoteAddr).1 := rfl
  have hr1 : (insertOrExtendForwardedHeader req (extractRemoteIP req.remoteAddr).1).header.get
      xffHeaderName = req.header.get xffHeaderName := by
    rw [insertOrExtendForwardedHeader]
    split
    · exact Header.get_set_other forwardedHeaderName _ xffHeaderName hcx req.header
    · exact Header.get_set_other forwardedHeaderName _ xffHeaderName hcx req.header
  refine ⟨?_, ?_, ?_, ?_, by decide, by decide, by decide⟩
  · intro i hi
    rw [extractRemoteIP, hi]
    exact ⟨rfl, rfl⟩
  · intro hi
    rw [extractRemoteIP, hi]
    exact ⟨rfl, rfl⟩
  · rw [hu1, insertOrExtendXFFHeader]
    by_cases hx : req.header.get xffHeaderName = ""
    · rw [if_neg (by rw [hr1, hx]; simp), if_pos hx]
      exact Header.get_set_self xffHeaderName _ _
    · rw [if_pos (by rw [hr1]; simpa using hx), if_neg hx, hr1]
      exact Header.get_set_self xffHeaderName _ _
  · rw [hu1, insertOrExtendXFFHeader]
    have hget : ∀ hh : Request,
        (insertOrExtendXFFHeader hh (extractRemoteIP req.remoteAddr).1).header.get
          forwardedHeaderName = hh.header.get forwardedHeaderName := by
      intro hh
      rw [insertOrExtendXFFHeader]
      split
      · exact Header.get_set_other xffHeaderName _ forwardedHeaderName hcf hh.header
      · exact Header.get_set_other xffHeaderName _ forwardedHeaderName hcf hh.header
    rw [show (if (insertOrExtendForwardedHeader req (extractRemoteIP req.remoteAddr).1).header.get
        xffHeaderName ≠ "" then _ else _) =
        insertOrExtendXFFHeader
          (insertOrExtendForwardedHeader req (extractRemoteIP req.remoteAddr).1)
          (extractRemoteIP req.remoteAddr).1 from rfl]
    rw [hget (insertOrExtendForwardedHeader req (extractRemoteIP req.remoteAddr).1)]
    rw [insertOrExtendForwardedHeader]
    by_cases hf : req.header.get forwardedHeaderName = ""
    · rw [if_neg (by rw [hf]; simp), if_pos hf]
      exact Header.get_set_self forwardedHeaderName _ _
    · rw [if_pos (by simpa using hf), if_neg hf]
      exact Header.get_set_self forwardedHeaderName _ _

/-- Witness for C7: the remote address `192.168.0.1:80` is cut at its
last colon (index 11) with no warning, and an address with no colon is
used whole with the warning logged. -/
theorem claim_forwarded_identity_witness :
    lastColonIdx ("192.168.0.1:80" : String).toList = some 11 ∧
    (extractRemoteIP "192.168.0.1:80").1 = "192.168.0.1" ∧
    (extractRemoteIP "192.168.0.1:80").2 = [] ∧
    (extractRemoteIP "unixsock").1 = "unixsock" ∧
    (extractRemoteIP "unixsock").2 = [LogEvent.remoteAddrWarning] := by
  have hA := claim_forwarded_identity sampleRequest
  have hB := claim_forwarded_identity { sampleRequest with remoteAddr := "unixsock" }
  have h1 : lastColonIdx sampleRequest.remoteAddr.toList = some 11 := by decide
  obtain ⟨hip, hlog⟩ := hA.1 11 h1
  obtain ⟨hip2, hlog2⟩ := hB.2.1 (by decide)
  exact ⟨h1, hip.trans (by decide), hlog, hip2, hlog2⟩


/-- C2: request cloning.  For every store, request and `K ≥ 1`, the `K`
duplicates produced by iterating `DuplicateRequest` (one call per
secondary backend, as in the `ServeHTTP` loop) each carry a body buffer
whose contents equal the original body bytes byte for byte; the buffers
are pairwise distinct heap cells, so fully reading (consuming) one
clone's body leaves every other clone's body intact; and when the
original body is absent (`nil`), every clone's body is empty. -/
theorem claim_clone_bodies (s : Store) (req : GoRequest) (B : Bytes) (K : Nat)
    (_hK : 1 ≤ K) (hB : GoodBody s req B) :
    (cloneLoopRef s req K).2.2.length = K ∧
    (∀ d ∈ (cloneLoopRef s req K).2.2,
      ∃ r : Nat, d.bodyRef = some r ∧ bufContents (cloneLoopRef s req K).1 r = B) ∧
    (∀ (i j : Nat) (di dj : GoRequest),
      (cloneLoopRef s req K).2.2[i]? = some di →
      (cloneLoopRef s req K).2.2[j]? = some dj → i ≠ j →
      di.bodyRef ≠ dj.bodyRef ∧
      bufContents (readAllBuf (cloneLoopRef s req K).1 (bRef di)).2 (bRef dj) = B) ∧
    (req.bodyRef = none → ∀ d ∈ (cloneLoopRef s req K).2.2,
      ∃ r : Nat, d.bodyRef = some r ∧ bufContents (cloneLoopRef s req K).1 r = []) := by
  obtain ⟨c1, c2, c3, c4, c5, c6, c7, c8, c9, c10⟩ := cloneLoopRef_spec K s req B hB
  have hrefs : ∀ (i : Nat) (d : GoRequest), (cloneLoopRef s req K).2.2[i]? = some d →
      d.bodyRef = some (bRef d) ∧ bufContents (cloneLoopRef s req K).1 (bRef d) = B := by
    intro i d hd
    obtain ⟨ha, _, _, hc⟩ := c8 d (List.getElem?_mem hd)
    exact ⟨ha, hc⟩
  refine ⟨c6, ?_, ?_, ?_⟩
  · intro d hd
    obtain ⟨ha, _, _, hc⟩ := c8 d hd
    exact ⟨bRef d, ha, hc⟩
  · intro i j di dj hdi hdj hij
    obtain ⟨hi, hieq⟩ := List.getElem?_eq_some.mp hdi
    obtain ⟨hj, hjeq⟩ := List.getElem?_eq_some.mp hdj
    have hilen : i < ((cloneLoopRef s req K).2.2.map bRef).length := by simpa using hi
    have hjlen : j < ((cloneLoopRef s req K).2.2.map bRef).length := by simpa using hj
    have hmapi : ((cloneLoopRef s req K).2.2.map bRef)[i] = bRef di := by
      simp [hieq]
    have hmapj : ((cloneLoopRef s req K).2.2.map bRef)[j] = bRef dj := by
      simp [hjeq]
    have hne : bRef di ≠ bRef dj := by
      rcases Nat.lt_or_ge i j with hlt | hge
      · have := List.pairwise_iff_getElem.mp c9 i j hilen hjlen hlt
        rw [hmapi, hmapj] at this
        exact Nat.ne_of_lt this
      · have hgt : j < i := Nat.lt_of_le_of_ne hge (Ne.symm hij)
        have := List.pairwise_iff_getElem.mp c9 j i hjlen hilen hgt
        rw [hmapi, hmapj] at this
        exact (Nat.ne_of_lt this).symm
    obtain ⟨hdi1, hdi2⟩ := hrefs i di hdi
    obtain ⟨hdj1, hdj2⟩ := hrefs j dj hdj
    constructor
    · rw [hdi1, hdj1]
      intro hcon
      exact hne (Option.some.inj hcon)
    · show bufContents
        { (cloneLoopRef s req K).1 with
          bufs := (cloneLoopRef s req K).1.bufs.set (bRef di) [] } (bRef dj) = B
      rw [bufContents]
      show (((cloneLoopRef s req K).1.bufs.set (bRef di) [])[bRef dj]?).getD [] = B
      rw [getq_set_ne _ _ _ _ hne]
      exact hdj2
  · intro hnone d hd
    have hB0 : B = [] := by
      simpa [GoodBody, hnone] using hB
    obtain ⟨ha, _, _, hc⟩ := c8 d hd
    exact ⟨bRef d, ha, hB0 ▸ hc⟩

/-- A concrete store for witnesses: one body buffer `[1, 2, 3]`, one
header map, one URL. -/
def sampleStore : Store := ⟨[[1, 2, 3]], [⟨[]⟩], ["/x?q=1"]⟩

/-- A concrete store-model request reading buffer 0. -/
def sampleGoReq : GoRequest :=
  { method := "GET", urlRef := 0, proto := "HTTP/1.1", protoMajor := 1, protoMinor := 1,
    headerRef := 0, bodyRef := some 0, host := "example.com", contentLength := 3,
    close := false }

/-- The first and second clones `cloneLoopRef` produces for
`sampleStore`/`sampleGoReq` (body buffers 2 and 4). -/
def sampleClone0 : GoRequest := { sampleGoReq with bodyRef := some 2, close := true }

def sampleClone1 : GoRequest := { sampleGoReq with bodyRef := some 4, close := true }

/-- Witness for C2 at `K = 2` on a 3-byte body: two clones, each reading
`[1, 2, 3]`, and consuming the first leaves the second intact. -/
theorem claim_clone_bodies_witness :
    (cloneLoopRef sampleStore sampleGoReq 2).2.2.length = 2 ∧
    (cloneLoopRef sampleStore sampleGoReq 2).2.2[0]? = some sampleClone0 ∧
    (cloneLoopRef sampleStore sampleGoReq 2).2.2[1]? = some sampleClone1 ∧
    bufContents (cloneLoopRef sampleStore sampleGoReq 2).1 2 = [1, 2, 3] ∧
    bufContents (cloneLoopRef sampleStore sampleGoReq 2).1 4 = [1, 2, 3] ∧
    sampleClone0.bodyRef ≠ sampleClone1.bodyRef ∧
    bufContents (readAllBuf (cloneLoopRef sampleStore sampleGoReq 2).1
      (bRef sampleClone0)).2 (bRef sampleClone1) = [1, 2, 3] := by
  have hA := claim_clone_bodies sampleStore sampleGoReq [1, 2, 3] 2 (by norm_num)
    ⟨by decide, rfl⟩
  have hpair := hA.2.2.1 0 1 sampleClone0 sampleClone1 (by decide) (by decide) (by decide)
  exact ⟨hA.1, by decide, by decide, by decide, by decide, hpair.1, hpair.2⟩


/-- Store-model `DuplicateRequest` copies the `Header`-map reference
and the `URL` reference into the duplicate, allocates no new header map
or URL, and copies the Host string by value. -/
theorem DuplicateRequestRef_shares (s : Store) (req : GoRequest) :
    (DuplicateRequestRef s req).2.2.headerRef = req.headerRef ∧
    (DuplicateRequestRef s req).2.1.headerRef = req.headerRef ∧
    (DuplicateRequestRef s req).2.2.urlRef = req.urlRef ∧
    (DuplicateRequestRef s req).2.1.urlRef = req.urlRef ∧
    (DuplicateRequestRef s req).1.headers = s.headers ∧
    (DuplicateRequestRef s req).1.urls = s.urls ∧
    (DuplicateRequestRef s req).2.1.host = req.host ∧
    (DuplicateRequestRef s req).2.2.host = req.host := by
  cases hr : req.bodyRef <;>
    simp [DuplicateRequestRef, readAllBuf, allocBuf, hr]

/-- In-place `Header.Set` through a live header-map address is read back
through the same address. -/
theorem headerGetAt_setAt_self (t : Store) (r : Nat) (k v : String)
    (hr : r < t.headers.length) :
    headerGetAt (headerSetAt t r k v) r k = v := by
  have hx : (t.headers.set r (((t.headers[r]?).getD ⟨[]⟩).set k v))[r]? =
      some (((t.headers[r]?).getD ⟨[]⟩).set k v) := by
    simp [List.getElem?_set_self', hr]
  rw [headerSetAt, headerGetAt]
  simp only [List.getD, List.get?_eq_getElem?, hx, Option.getD_some]
  exact Header.get_set_self k v _

/-- Counterexample for C6: the clone and the original share the header
map by reference, so an in-place header mutation through the clone is
visible when reading through the original — clones do not own their
header state independently. -/
theorem claim_clone_field_independence_cex :
    (DuplicateRequestRef sampleStore sampleGoReq).2.2.headerRef =
      (DuplicateRequestRef sampleStore sampleGoReq).2.1.headerRef ∧
    headerGetAt (DuplicateRequestRef sampleStore sampleGoReq).1
      (DuplicateRequestRef sampleStore sampleGoReq).2.1.headerRef "X-Test" = "" ∧
    headerGetAt
      (headerSetAt (DuplicateRequestRef sampleStore sampleGoReq).1
        (DuplicateRequestRef sampleStore sampleGoReq).2.2.headerRef "X-Test" "y")
      (DuplicateRequestRef sampleStore sampleGoReq).2.1.headerRef "X-Test" = "y" := by
  refine ⟨by decide, by decide, by decide⟩

/-- C6 (amended): `DuplicateRequest` gives each clone its own `Host`
string and its own body buffer, but the header map and the URL object
are shared by reference with the original, so in-place mutation of a
clone's headers is visible through the original (and every other
sharer); the program itself only rewrites a clone's URL by *replacing*
the reference (`setRequestTarget` allocates a fresh URL), which leaves
the original's URL untouched, and only rewrites Host by field
assignment, which no other request observes. -/
theorem claim_clone_sharing_amended (s : Store) (req : GoRequest)
    (target scheme x : String) :
    (DuplicateRequestRef s req).2.2.headerRef = req.headerRef ∧
    (DuplicateRequestRef s req).2.1.headerRef = req.headerRef ∧
    (req.headerRef < s.headers.length → ∀ k v : String,
      headerGetAt
        (headerSetAt (DuplicateRequestRef s req).1
          (DuplicateRequestRef s req).2.2.headerRef k v)
        (DuplicateRequestRef s req).2.1.headerRef k = v) ∧
    ({ (DuplicateRequestRef s req).2.2 with host := x }.host = x ∧
      (DuplicateRequestRef s req).2.1.host = req.host) ∧
    (req.urlRef < s.urls.length →
      (setRequestTargetRef (DuplicateRequestRef s req).1
        (DuplicateRequestRef s req).2.2 target scheme).2.urlRef ≠
        (DuplicateRequestRef s req).2.1.urlRef ∧
      urlAt (setRequestTargetRef (DuplicateRequestRef s req).1
          (DuplicateRequestRef s req).2.2 target scheme).1
        (DuplicateRequestRef s req).2.1.urlRef =
        urlAt s req.urlRef) := by
  obtain ⟨s1, s2, s3, s4, s5, s6, s7, s8⟩ := DuplicateRequestRef_shares s req
  refine ⟨s1, s2, ?_, ⟨rfl, s7⟩, ?_⟩
  · intro hhr k v
    rw [s1, s2]
    exact headerGetAt_setAt_self (DuplicateRequestRef s req).1 req.headerRef k v
      (by rw [s5]; exact hhr)
  · intro hurl
    constructor
    · show (DuplicateRequestRef s req).1.urls.length ≠
        (DuplicateRequestRef s req).2.1.urlRef
      rw [s6, s4]
      exact (Nat.ne_of_lt hurl).symm
    · have hurls : (setRequestTargetRef (DuplicateRequestRef s req).1
          (DuplicateRequestRef s req).2.2 target scheme).1.urls =
          (DuplicateRequestRef s req).1.urls ++
            [scheme ++ "://" ++ target ++
              urlAt (DuplicateRequestRef s req).1 (DuplicateRequestRef s req).2.2.urlRef] :=
        rfl
      rw [urlAt, hurls, s4]
      simp only [List.getD, List.get?_eq_getElem?]
      rw [getq_append_lt _ _ req.urlRef (by rw [s6]; exact hurl), s6]
      simp [urlAt, List.getD, List.get?_eq_getElem?]

/-- Witness for C6 (amended) on the concrete store: the shared header
map reads back the clone's in-place mutation through the original, the
clone's Host assignment is purely local, and after `setRequestTarget`
the clone's URL reference is fresh while the original still reads
`/x?q=1`. -/
theorem claim_clone_sharing_amended_witness :
    headerGetAt
      (headerSetAt (DuplicateRequestRef sampleStore sampleGoReq).1
        (DuplicateRequestRef sampleStore sampleGoReq).2.2.headerRef "X-Test" "y")
      (DuplicateRequestRef sampleStore sampleGoReq).2.1.headerRef "X-Test" = "y" ∧
    (setRequestTargetRef (DuplicateRequestRef sampleStore sampleGoReq).1
      (DuplicateRequestRef sampleStore sampleGoReq).2.2 "localhost:8081" "http").2.urlRef ≠
      (DuplicateRequestRef sampleStore sampleGoReq).2.1.urlRef ∧
    urlAt (setRequestTargetRef (DuplicateRequestRef sampleStore sampleGoReq).1
        (DuplicateRequestRef sampleStore sampleGoReq).2.2 "localhost:8081" "http").1
      (DuplicateRequestRef sampleStore sampleGoReq).2.1.urlRef =
      urlAt sampleStore sampleGoReq.urlRef := by
  have hA := claim_clone_sharing_amended sampleStore sampleGoReq "localhost:8081" "http" "h"
  have hurl := hA.2.2.2.2 (by decide)
  exact ⟨hA.2.2.1 (by decide) "X-Test" "y", hurl.1, hurl.2⟩

end Teeproxy
